import Mathlib

/-!
Verification of the bot-compras core: the billing-cycle advisory engine
(cycle catalog, payment-window calculator, card ranking, advisory policy)
and the pending-confirmation state machine (store, confirm / confirm-anyway /
cancel handlers, TTL expiry), shallowly embedded from the JavaScript source.
-/

namespace BotCompras

/-!
Calendar model.  A JS `Date` normalized to midnight is modelled by its civil
triple: `year` (astronomical year, `getFullYear`), `month` (0-based, as in
`getMonth`), `day` (1-based, as in `getDate`).  `toDays` is the numeric time
value of such a date measured in days; the scale and epoch offset are
irrelevant because the source only compares dates and takes differences.
Daylight-saving shifts are not modelled: the source neutralises them with
`Math.ceil` when converting a millisecond difference to whole days.
-/

structure JSDate where
  year : Int
  month : Nat
  day : Nat
deriving Repr, DecidableEq

/-- JS Gregorian leap-year rule.  The JS `%` is a truncating remainder while
Lean's is euclidean, but the two agree on the `== 0` tests used here. -/
def isLeap (y : Int) : Bool :=
  (y % 4 == 0 && y % 100 != 0) || y % 400 == 0

/-- Length of month `m` (0-based) in year `y`. -/
def daysInMonth (y : Int) (m : Nat) : Nat :=
  match m with
  | 0 => 31
  | 1 => if isLeap y then 29 else 28
  | 2 => 31
  | 3 => 30
  | 4 => 31
  | 5 => 30
  | 6 => 31
  | 7 => 31
  | 8 => 30
  | 9 => 31
  | 10 => 30
  | 11 => 31
  | _ => 31

/-- One extra day in a leap year. -/
def leapDay (y : Int) : Nat := if isLeap y then 1 else 0

/-- Days of year `y` that fall before month `m` (0-based). -/
def daysBeforeMonth (y : Int) (m : Nat) : Nat :=
  match m with
  | 0 => 0
  | 1 => 31
  | 2 => 59 + leapDay y
  | 3 => 90 + leapDay y
  | 4 => 120 + leapDay y
  | 5 => 151 + leapDay y
  | 6 => 181 + leapDay y
  | 7 => 212 + leapDay y
  | 8 => 243 + leapDay y
  | 9 => 273 + leapDay y
  | 10 => 304 + leapDay y
  | 11 => 334 + leapDay y
  | _ => 334 + leapDay y

/-- Number of leap years `k` with `0 ≤ k < y` (proleptic Gregorian),
extended to all integers consistently with the stepping law. -/
def leapsBefore (y : Int) : Int :=
  (y + 3) / 4 - (y + 99) / 100 + (y + 399) / 400

/-- Days from the civil epoch 0000-01-01 to `y`-01-01. -/
def daysBeforeYear (y : Int) : Int := 365 * y + leapsBefore y

/-- Numeric time value of a midnight date, in days.  JS comparisons between
`Date`s (`<=` on time values) and the millisecond subtraction in the source
are both images of this map. -/
def toDays (dt : JSDate) : Int :=
  daysBeforeYear dt.year + daysBeforeMonth dt.year dt.month + dt.day - 1

/-- JS day-of-month normalisation: while the day exceeds the length of the
current month, move to the next month and drop that many days (so "Feb 31"
becomes Mar 3).  The fuel argument only bounds the recursion; every caller
passes the day itself as fuel, which always suffices because each step
removes at least 28 days. -/
def rollDay : Nat → Int → Nat → Nat → JSDate
  | 0, y, m, d => ⟨y, m, d⟩
  | fuel + 1, y, m, d =>
    if daysInMonth y m < d then
      rollDay fuel (y + (((m + 1) / 12 : Nat) : Int)) ((m + 1) % 12) (d - daysInMonth y m)
    else ⟨y, m, d⟩

/-- JS `new Date(y, m, d)` at midnight (also the effect of `setMonth`): the
month index is normalised into the year by floor division — all month
arguments in this program are non-negative (a `getMonth` result plus 0, 1
or 2), so `Nat` division models the JS floor normalisation exactly — and a
day beyond the target month's length is normalised forward into the
following months, as `setMonth` does to an out-of-range day-of-month (e.g.
Jan 31 plus one month is Mar 3). -/
def mkDate (y : Int) (m : Nat) (d : Nat) : JSDate :=
  rollDay d (y + (m / 12 : Nat)) (m % 12) d

/-- The civil year/month pair one JS month after month `m` (0-based) of year
`y`; used only to state where a cut date lands. -/
def nextYM (y : Int) (m : Nat) : Int × Nat :=
  (y + (((m + 1) / 12 : Nat) : Int), (m + 1) % 12)

/-- The triple is an actual calendar date: what `normalizeToDay` of a real JS
`Date` always yields. -/
def Canonical (dt : JSDate) : Prop :=
  dt.month < 12 ∧ 1 ≤ dt.day ∧ dt.day ≤ daysInMonth dt.year dt.month

instance (dt : JSDate) : Decidable (Canonical dt) := by
  unfold Canonical; infer_instance

/-- Source `normalizeToDay`: sets the time of day to 00:00:00.  The model is
date-only, so it is the identity; it is kept for structural fidelity. -/
def normalizeToDay (date : JSDate) : JSDate := date

/-- Source `addMonths`: `setMonth(getMonth() + months)` followed by
`setHours(0,0,0,0)`, for the non-negative shifts used by this program. -/
def addMonths (date : JSDate) (months : Nat) : JSDate :=
  mkDate date.year (date.month + months) date.day

/-- Source `buildDateYMDay`: same year/month as `baseDate`, specific day. -/
def buildDateYMDay (baseDate : JSDate) (day : Nat) : JSDate :=
  mkDate baseDate.year baseDate.month day

/-- Source `getNextCutDate`: this month's cut if today is on or before it,
else the same day of the next month. -/
def getNextCutDate (today : JSDate) (cutDay : Nat) : JSDate :=
  let cutThisMonth := buildDateYMDay today cutDay
  if toDays today ≤ toDays cutThisMonth then cutThisMonth
  else buildDateYMDay (addMonths today 1) cutDay

/-- A card's billing-cycle configuration. -/
structure CycleConfig where
  cutDay : Nat
  dueDay : Nat
  dueOffset : Nat
deriving Repr, DecidableEq

/-- Source `CARD_CYCLE`.  The list order is the JS object's insertion order,
which `Object.keys` preserves for these (non-index) string keys. -/
def CARD_CYCLE : List (String × CycleConfig) :=
  [("BBVA", ⟨24, 13, 1⟩),
   ("RAPPICARD", ⟨6, 26, 0⟩),
   ("HSBC", ⟨16, 5, 1⟩),
   ("BANAMEX", ⟨6, 26, 0⟩),
   ("NU", ⟨7, 19, 0⟩),
   ("MERCADOPAGO", ⟨13, 23, 0⟩)]

/-- JS property read `CARD_CYCLE[bank]`. -/
def cardCycleLookup (bank : String) : Option CycleConfig :=
  (CARD_CYCLE.find? (fun p => p.1 == bank)).map (fun p => p.2)

/-- Source `SKIP_CUT_VALIDATION` (a JS `Set`; only membership is used). -/
def SKIP_CUT_VALIDATION : List String := ["CAPITAL", "PRESTAMO"]

/-- Source `IMPROVEMENT_THRESHOLD_DAYS`. -/
def IMPROVEMENT_THRESHOLD_DAYS : Int := 5

structure PaymentWindow where
  cutDate : JSDate
  dueDate : JSDate
  daysToPay : Int
  cfg : CycleConfig
deriving Repr, DecidableEq

/-- Body of source `getPaymentWindow` after the catalog lookup succeeded.
`Math.ceil((dueDate - t) / 86400000)` on two midnight dates is exactly the
difference of their day counts. -/
def computeWindow (cfg : CycleConfig) (today : JSDate) : PaymentWindow :=
  let t := normalizeToDay today
  let cutDate := getNextCutDate t cfg.cutDay
  let dueBase := addMonths cutDate cfg.dueOffset
  let dueDate0 := buildDateYMDay dueBase cfg.dueDay
  let dueDate :=
    if toDays dueDate0 ≤ toDays cutDate then
      buildDateYMDay (addMonths dueBase 1) cfg.dueDay
    else dueDate0
  let daysToPay := max 0 (toDays dueDate - toDays t)
  ⟨cutDate, dueDate, daysToPay, cfg⟩

/-- Source `getPaymentWindow`: `null` for a bank without a catalog entry. -/
def getPaymentWindow (bank : String) (today : JSDate) : Option PaymentWindow :=
  (cardCycleLookup bank).map (fun cfg => computeWindow cfg today)

/-- An entry of the ranking: the source spreads the window fields next to the
bank name; the model nests them, which is the same data. -/
structure RankedCard where
  bank : String
  window : PaymentWindow
deriving Repr, DecidableEq

/-- The JS sort comparator `(a, b) => b.daysToPay - a.daysToPay` keeps `a`
before `b` exactly when it returns a value `≤ 0`. -/
def rankLE (a b : RankedCard) : Bool :=
  decide (b.window.daysToPay ≤ a.window.daysToPay)

/-- The pre-sort list built by source `rankCardsByDaysToPay`: catalog keys in
insertion order, minus the excluded banks, each paired with its window
(`filterMap` models the `.map(...).filter(Boolean)` pair). -/
def rankUnsorted (today : JSDate) (excludeBanks : List String) : List RankedCard :=
  ((CARD_CYCLE.map Prod.fst).filter (fun bank => ! excludeBanks.contains bank)).filterMap
    (fun bank =>
      (getPaymentWindow bank (normalizeToDay today)).map (fun w => RankedCard.mk bank w))

/-- Source `rankCardsByDaysToPay`: descending stable sort by `daysToPay`
(JS `Array.prototype.sort` is stable). -/
def rankCardsByDaysToPay (today : JSDate) (excludeBanks : List String) : List RankedCard :=
  (rankUnsorted today excludeBanks).mergeSort rankLE

/-!
Pending-confirmation store and the confirmation state machine.  The source
keeps a JS `Map` from `chatId:userId` keys to `{data, createdAt, stage}`
records; the handlers are Telegram callbacks.  They are embedded as pure
functions of the store, the wall clock (`now` for `Date.now()`, `today` for
the `new Date()` of the same instant) and a flag `persistOk` telling whether
the external `savePurchaseToSheets` append succeeds: when it throws, the
handler's `catch` block reports a retryable error and the `delete` scheduled
after the `await` is never reached.
-/

inductive Stage where
  | PREVIEW
  | WARNED
deriving Repr, DecidableEq

/-- The purchase fields held by a pending entry.  The numeric amount is
carried opaquely (none of the handlers inspects it). -/
structure PurchaseData where
  date : String
  amount : Int
  months : Nat
  bank : String
  description : String
  user : String
deriving Repr, DecidableEq

structure PendingEntry where
  data : PurchaseData
  createdAt : Int
  stage : Stage
deriving Repr, DecidableEq

/-- Source `PENDING_TTL_MS` (3 minutes, in milliseconds). -/
def PENDING_TTL_MS : Int := 3 * 60 * 1000

/-- Source key construction for the pending map. -/
def pendingKey (chatId userId : Int) : String :=
  toString chatId ++ ":" ++ toString userId

/-- The `pendingPurchases` JS `Map`, modelled as an association list (every
state the handlers build has at most one binding per key). -/
abbrev Store := List (String × PendingEntry)

/-- JS `Map.get`. -/
def storeGet (s : Store) (key : String) : Option PendingEntry :=
  (s.find? (fun p => p.1 == key)).map (fun p => p.2)

/-- JS `Map.set`: replaces the binding in place, or appends a new one. -/
def storeSet : Store → String → PendingEntry → Store
  | [], key, v => [(key, v)]
  | (k, w) :: rest, key, v =>
    if k == key then (key, v) :: rest else (k, w) :: storeSet rest key v

/-- JS `Map.delete`: removes the binding for the key, if any. -/
def storeDelete : Store → String → Store
  | [], _ => []
  | (k, w) :: rest, key =>
    if k == key then rest else (k, w) :: storeDelete rest key

/-- Observable outcome of a user action, as surfaced to the user through
`answerCbQuery` / `editMessageText`. -/
inductive Outcome where
  | nothingPending
  | expired
  | committed
  | warned (top3 : List RankedCard)
  | cancelled
  | persistenceError
deriving Repr, DecidableEq

/-- Source `shouldWarn` (the `const` inside the confirm handler): a best
alternative exists, it beats the chosen window by at least the threshold,
and the entry was not already warned. -/
def shouldWarn (bestAlt : Option RankedCard) (chosen : PaymentWindow) (stage : Stage) : Bool :=
  match bestAlt with
  | none => false
  | some alt =>
    decide (alt.window.daysToPay ≥ chosen.daysToPay + IMPROVEMENT_THRESHOLD_DAYS) &&
    decide (stage ≠ Stage.WARNED)

/-- Source handler `confirm_purchase` (the first Confirmar button). -/
def confirm_purchase (s : Store) (key : String) (now : Int) (today : JSDate)
    (persistOk : Bool) : Store × Outcome :=
  match storeGet s key with
  | none => (s, Outcome.nothingPending)
  | some pending =>
    if PENDING_TTL_MS < now - pending.createdAt then
      (storeDelete s key, Outcome.expired)
    else
      let purchase := pending.data
      if SKIP_CUT_VALIDATION.contains purchase.bank then
        if persistOk then (storeDelete s key, Outcome.committed)
        else (s, Outcome.persistenceError)
      else
        match getPaymentWindow purchase.bank today with
        | none =>
          if persistOk then (storeDelete s key, Outcome.committed)
          else (s, Outcome.persistenceError)
        | some chosen =>
          let ranking := rankCardsByDaysToPay today [purchase.bank]
          if shouldWarn ranking.head? chosen pending.stage then
            (storeSet s key { pending with stage := Stage.WARNED },
             Outcome.warned (ranking.take 3))
          else
            if persistOk then (storeDelete s key, Outcome.committed)
            else (s, Outcome.persistenceError)

/-- Source handler `confirm_purchase_ok` (the OK-Guardar button): existence
and TTL checks, then persistence — no stage guard and no advisory. -/
def confirm_purchase_ok (s : Store) (key : String) (now : Int)
    (persistOk : Bool) : Store × Outcome :=
  match storeGet s key with
  | none => (s, Outcome.nothingPending)
  | some pending =>
    if PENDING_TTL_MS < now - pending.createdAt then
      (storeDelete s key, Outcome.expired)
    else
      if persistOk then (storeDelete s key, Outcome.committed)
      else (s, Outcome.persistenceError)

/-- Source handler `cancel_purchase`: unconditional delete and a
"Compra cancelada" reply — no existence check and no TTL check. -/
def cancel_purchase (s : Store) (key : String) : Store × Outcome :=
  (storeDelete s key, Outcome.cancelled)

/-- Source periodic cleanup (the `setInterval` body): drop every entry whose
age exceeds the TTL. -/
def sweepExpired (s : Store) (now : Int) : Store :=
  s.filter (fun p => decide (now - p.2.createdAt ≤ PENDING_TTL_MS))

/-!
Concrete fixtures used to instantiate the theorems below.
-/

def bbva : String := "BBVA"

def rappicard : String := "RAPPICARD"

def banamex : String := "BANAMEX"

def capital : String := "CAPITAL"

/-- A bank identifier configured in neither the catalog nor the exempt set. -/
def amex : String := "AMEX"

/-- A sample `chatId:userId` key. -/
def exKey : String := "7:42"

/-- A sample parsed purchase for the given bank. -/
def samplePurchase (bank : String) : PurchaseData :=
  ⟨"10/01/2026", 9000, 12, bank, "Pantalla Samsung 85", "Cesar"⟩

/-- A one-entry store holding a sample pending purchase. -/
def sampleStore (bank : String) (stage : Stage) : Store :=
  [(exKey, ⟨samplePurchase bank, 0, stage⟩)]

/-- The BBVA window at reference date 2026-01-10. -/
def wBBVA : PaymentWindow := ⟨⟨2026, 0, 24⟩, ⟨2026, 1, 13⟩, 34, ⟨24, 13, 1⟩⟩

/-- A chosen window giving 10 days to pay. -/
def pw10 : PaymentWindow := ⟨⟨2026, 0, 6⟩, ⟨2026, 0, 16⟩, 10, ⟨6, 16, 0⟩⟩

/-- An alternative giving 15 days to pay: a 5-day edge over `pw10`. -/
def alt15 : RankedCard := ⟨bbva, ⟨⟨2026, 0, 24⟩, ⟨2026, 1, 13⟩, 15, ⟨24, 13, 1⟩⟩⟩

/-- The RAPPICARD entry of the ranking at reference date 2026-01-01. -/
def rcRappi : RankedCard := ⟨rappicard, ⟨⟨2026, 0, 6⟩, ⟨2026, 0, 26⟩, 25, ⟨6, 26, 0⟩⟩⟩

/-- The BANAMEX entry of the ranking at reference date 2026-01-01: tied with
`rcRappi` on `daysToPay`. -/
def rcBanamex : RankedCard := ⟨banamex, ⟨⟨2026, 0, 6⟩, ⟨2026, 0, 26⟩, 25, ⟨6, 26, 0⟩⟩⟩

/-!
Calendar lemmas: the stepping laws of `toDays` that the payment-window proofs
rest on.
-/

theorem isLeap_iff (y : Int) :
    isLeap y = true ↔ ((y % 4 = 0 ∧ ¬ y % 100 = 0) ∨ y % 400 = 0) := by
  simp [isLeap]

theorem daysInMonth_ge_28 (y : Int) (m : Nat) : 28 ≤ daysInMonth y m := by
  unfold daysInMonth
  split
  any_goals omega
  split <;> omega

theorem daysInMonth_le_31 (y : Int) (m : Nat) : daysInMonth y m ≤ 31 := by
  unfold daysInMonth
  split
  any_goals omega
  split <;> omega

theorem daysBeforeYear_succ (y : Int) :
    daysBeforeYear (y + 1) = daysBeforeYear y + (if isLeap y then 366 else 365) := by
  unfold daysBeforeYear leapsBefore
  split
  case isTrue h =>
    have hy := (isLeap_iff y).mp h
    omega
  case isFalse h =>
    have hy : ¬ ((y % 4 = 0 ∧ ¬ y % 100 = 0) ∨ y % 400 = 0) := by
      intro hc
      exact h ((isLeap_iff y).mpr hc)
    omega

theorem daysBeforeYear_succ_alt (y : Int) :
    daysBeforeYear (y + 1) = daysBeforeYear y + daysBeforeMonth y 11 + daysInMonth y 11 := by
  rw [daysBeforeYear_succ]
  by_cases hL : isLeap y = true <;>
    simp [daysBeforeMonth, daysInMonth, leapDay, hL] <;> omega

theorem toDays_mk (y : Int) (m : Nat) (d : Nat) :
    toDays ⟨y, m, d⟩ = daysBeforeYear y + daysBeforeMonth y m + d - 1 := rfl

theorem rollDay_of_le (fuel : Nat) (y : Int) (m : Nat) (d : Nat)
    (h : d ≤ daysInMonth y m) : rollDay fuel y m d = ⟨y, m, d⟩ := by
  cases fuel with
  | zero => rfl
  | succ fuel =>
    show (if daysInMonth y m < d then
            rollDay fuel (y + (((m + 1) / 12 : Nat) : Int)) ((m + 1) % 12)
              (d - daysInMonth y m)
          else (⟨y, m, d⟩ : JSDate)) = ⟨y, m, d⟩
    rw [if_neg (by omega)]

theorem rollDay_month_lt (fuel : Nat) : ∀ (y : Int) (m : Nat) (d : Nat), m < 12 →
    (rollDay fuel y m d).month < 12 := by
  induction fuel with
  | zero => intro y m d h; exact h
  | succ fuel ih =>
    intro y m d h
    show (if daysInMonth y m < d then
            rollDay fuel (y + (((m + 1) / 12 : Nat) : Int)) ((m + 1) % 12)
              (d - daysInMonth y m)
          else (⟨y, m, d⟩ : JSDate)).month < 12
    split
    · exact ih _ _ _ (by omega)
    · exact h

theorem daysBeforeMonth_succ (y : Int) (m : Nat) (h : m < 11) :
    daysBeforeMonth y (m + 1) = daysBeforeMonth y m + daysInMonth y m := by
  interval_cases m <;>
    simp only [daysBeforeMonth, daysInMonth, leapDay] <;>
    first
      | rfl
      | omega
      | (split <;> omega)

/-- Each normalisation step of `rollDay` preserves the time value: a day
that spills past its month is the same instant as the spilled day of the
next month. -/
theorem toDays_rollDay (fuel : Nat) : ∀ (y : Int) (m : Nat) (d : Nat), m < 12 →
    toDays (rollDay fuel y m d) = toDays ⟨y, m, d⟩ := by
  induction fuel with
  | zero => intro y m d h; rfl
  | succ fuel ih =>
    intro y m d h
    show toDays
        (if daysInMonth y m < d then
          rollDay fuel (y + (((m + 1) / 12 : Nat) : Int)) ((m + 1) % 12)
            (d - daysInMonth y m)
         else (⟨y, m, d⟩ : JSDate)) = toDays ⟨y, m, d⟩
    split
    case isFalse hov => rfl
    case isTrue hov =>
      rw [ih _ _ _ (by omega)]
      rcases Nat.lt_or_ge m 11 with hm | hm
      · rw [Nat.div_eq_of_lt (by omega), Nat.mod_eq_of_lt (by omega)]
        simp only [Nat.cast_zero, add_zero]
        rw [toDays_mk, toDays_mk, daysBeforeMonth_succ y m hm]
        push_cast
        omega
      · have hm11 : m = 11 := by omega
        subst hm11
        rw [show (11 + 1) / 12 = 1 from rfl, show (11 + 1) % 12 = 0 from rfl]
        rw [toDays_mk, toDays_mk]
        rw [show daysBeforeMonth (y + ((1 : Nat) : Int)) 0 = 0 from rfl]
        push_cast
        rw [daysBeforeYear_succ_alt]
        omega

/-- The time value of `new Date(y, m, d)`: day normalisation does not change
the instant, only the civil fields. -/
theorem toDays_mkDate (y : Int) (m : Nat) (d : Nat) :
    toDays (mkDate y m d) = toDays ⟨y + ((m / 12 : Nat) : Int), m % 12, d⟩ :=
  toDays_rollDay d _ _ _ (by omega)

/-- A day that fits inside an in-range month is kept as given. -/
theorem mkDate_eq_of_lt (y : Int) (m : Nat) (d : Nat) (hm : m < 12)
    (hd : d ≤ daysInMonth y m) : mkDate y m d = ⟨y, m, d⟩ := by
  unfold mkDate
  rw [Nat.div_eq_of_lt hm, Nat.mod_eq_of_lt hm]
  simp only [Nat.cast_zero, add_zero]
  exact rollDay_of_le d y m d hd

theorem mkDate_month_lt (y : Int) (m : Nat) (d : Nat) : (mkDate y m d).month < 12 :=
  rollDay_month_lt d _ _ _ (by omega)

/-- Moving to the same day of the next month advances the time value by the
length of the starting month. -/
theorem toDays_next_month (y : Int) (m : Nat) (d : Nat) (h : m < 12) :
    toDays (mkDate y (m + 1) d) = toDays ⟨y, m, d⟩ + daysInMonth y m := by
  rw [toDays_mkDate]
  rcases Nat.lt_or_ge m 11 with hm | hm
  · rw [Nat.div_eq_of_lt (by omega), Nat.mod_eq_of_lt (by omega)]
    simp only [Nat.cast_zero, add_zero]
    rw [toDays_mk, toDays_mk, daysBeforeMonth_succ y m hm]
    push_cast
    ring
  · have hm11 : m = 11 := by omega
    subst hm11
    rw [show (11 + 1) / 12 = 1 from rfl, show (11 + 1) % 12 = 0 from rfl]
    rw [toDays_mk, toDays_mk]
    rw [show daysBeforeMonth (y + ((1 : Nat) : Int)) 0 = 0 from rfl]
    push_cast
    rw [daysBeforeYear_succ_alt]
    ring

/-- Within a fixed month, comparing time values is comparing days. -/
theorem toDays_day_le (y : Int) (m : Nat) (d1 d2 : Nat) :
    toDays ⟨y, m, d1⟩ ≤ toDays ⟨y, m, d2⟩ ↔ d1 ≤ d2 := by
  rw [toDays_mk, toDays_mk]
  omega

theorem toDays_day_lt (y : Int) (m : Nat) (d1 d2 : Nat) :
    toDays ⟨y, m, d1⟩ < toDays ⟨y, m, d2⟩ ↔ d1 < d2 := by
  rw [toDays_mk, toDays_mk]
  omega

theorem toDays_day_sub (y : Int) (m : Nat) (d1 d2 : Nat) :
    toDays ⟨y, m, d2⟩ - toDays ⟨y, m, d1⟩ = (d2 : Int) - d1 := by
  rw [toDays_mk, toDays_mk]
  omega

/-- Rebasing a freshly built date to another day keeps its year and month,
provided neither day overflows its month. -/
theorem buildDateYMDay_mkDate (y : Int) (m : Nat) (d d' : Nat)
    (hd : d ≤ 28) (hd' : d' ≤ 28) :
    buildDateYMDay (mkDate y m d) d' = mkDate y m d' := by
  have h1 : mkDate y m d = ⟨y + ((m / 12 : Nat) : Int), m % 12, d⟩ :=
    rollDay_of_le d _ _ _ (le_trans hd (daysInMonth_ge_28 _ _))
  have h2 : mkDate y m d' = ⟨y + ((m / 12 : Nat) : Int), m % 12, d'⟩ :=
    rollDay_of_le d' _ _ _ (le_trans hd' (daysInMonth_ge_28 _ _))
  rw [h1, h2]
  show mkDate (y + ((m / 12 : Nat) : Int)) (m % 12) d' = _
  rw [mkDate_eq_of_lt _ _ _ (by omega) (le_trans hd' (daysInMonth_ge_28 _ _))]

/-- Applying `nextYM` twice is the two-month jump. -/
theorem nextYM_add2 (y : Int) (m : Nat) :
    (nextYM (nextYM y m).1 (nextYM y m).2).1 = y + (((m + 2) / 12 : Nat) : Int) ∧
    (nextYM (nextYM y m).1 (nextYM y m).2).2 = (m + 2) % 12 := by
  unfold nextYM
  constructor
  · omega
  · simp only
    omega

/-- `addMonths` by one month when the day also exists in the next month:
plain month increment, day kept. -/
theorem addMonths_one_fits (t : JSDate)
    (hfit : t.day ≤ daysInMonth (nextYM t.year t.month).1 (nextYM t.year t.month).2) :
    addMonths t 1 = ⟨(nextYM t.year t.month).1, (nextYM t.year t.month).2, t.day⟩ := by
  exact rollDay_of_le t.day (nextYM t.year t.month).1 (nextYM t.year t.month).2 t.day hfit

/-- `addMonths` by one month when the day overflows the next month: the JS
day normalisation lands in the month after, on the spilled day. -/
theorem addMonths_one_overflow (t : JSDate) (hc : Canonical t)
    (hov : daysInMonth (nextYM t.year t.month).1 (nextYM t.year t.month).2 < t.day) :
    addMonths t 1 =
      ⟨(nextYM (nextYM t.year t.month).1 (nextYM t.year t.month).2).1,
       (nextYM (nextYM t.year t.month).1 (nextYM t.year t.month).2).2,
       t.day - daysInMonth (nextYM t.year t.month).1 (nextYM t.year t.month).2⟩ := by
  obtain ⟨hm, hd1, hd2⟩ := hc
  have hle31 : t.day ≤ 31 := le_trans hd2 (daysInMonth_le_31 _ _)
  obtain ⟨k, hk⟩ : ∃ k, t.day = k + 1 := ⟨t.day - 1, by omega⟩
  show mkDate t.year (t.month + 1) t.day = _
  unfold mkDate
  rw [hk] at hov hle31 ⊢
  show (if daysInMonth (nextYM t.year t.month).1 (nextYM t.year t.month).2 < k + 1 then
          rollDay k ((nextYM t.year t.month).1 + ((((nextYM t.year t.month).2 + 1) / 12 : Nat) : Int))
            (((nextYM t.year t.month).2 + 1) % 12)
            (k + 1 - daysInMonth (nextYM t.year t.month).1 (nextYM t.year t.month).2)
        else ⟨(nextYM t.year t.month).1, (nextYM t.year t.month).2, k + 1⟩) = _
  rw [if_pos hov]
  have h28a := daysInMonth_ge_28 (nextYM t.year t.month).1 (nextYM t.year t.month).2
  have h28b := daysInMonth_ge_28
    ((nextYM t.year t.month).1 + ((((nextYM t.year t.month).2 + 1) / 12 : Nat) : Int))
    (((nextYM t.year t.month).2 + 1) % 12)
  exact rollDay_of_le _ _ _ _ (by omega)

/-!
Payment-window characterisation.
-/

/-- The applicable cut: this month's cut day when the reference day is on or
before it; otherwise the cut day of the next month when the reference day
also exists there, and of the month after that when the reference day
overflows the next month (JS `setMonth` day normalisation). -/
theorem getNextCutDate_cases (t : JSDate) (cutDay : Nat) (hc : Canonical t)
    (h28 : cutDay ≤ 28) :
    (t.day ≤ cutDay → getNextCutDate t cutDay = ⟨t.year, t.month, cutDay⟩) ∧
    (cutDay < t.day →
      t.day ≤ daysInMonth (nextYM t.year t.month).1 (nextYM t.year t.month).2 →
      getNextCutDate t cutDay = mkDate t.year (t.month + 1) cutDay) ∧
    (cutDay < t.day →
      daysInMonth (nextYM t.year t.month).1 (nextYM t.year t.month).2 < t.day →
      getNextCutDate t cutDay = mkDate t.year (t.month + 2) cutDay) := by
  have hb : buildDateYMDay t cutDay = ⟨t.year, t.month, cutDay⟩ :=
    mkDate_eq_of_lt _ _ _ hc.1 (le_trans h28 (daysInMonth_ge_28 _ _))
  have hcmp : (toDays t ≤ toDays (buildDateYMDay t cutDay)) ↔ t.day ≤ cutDay := by
    rw [hb]
    exact toDays_day_le t.year t.month t.day cutDay
  have hnm : (nextYM t.year t.month).2 < 12 := by
    simp only [nextYM]
    omega
  refine ⟨?_, ?_, ?_⟩
  · intro h
    show (if toDays t ≤ toDays (buildDateYMDay t cutDay) then buildDateYMDay t cutDay
          else buildDateYMDay (addMonths t 1) cutDay) = _
    rw [if_pos (hcmp.mpr h), hb]
  · intro h hfit
    show (if toDays t ≤ toDays (buildDateYMDay t cutDay) then buildDateYMDay t cutDay
          else buildDateYMDay (addMonths t 1) cutDay) = _
    rw [if_neg (by rw [hcmp]; omega), addMonths_one_fits t hfit]
    show mkDate (nextYM t.year t.month).1 (nextYM t.year t.month).2 cutDay = _
    rw [mkDate_eq_of_lt _ _ _ hnm (le_trans h28 (daysInMonth_ge_28 _ _))]
    exact (rollDay_of_le cutDay (nextYM t.year t.month).1 (nextYM t.year t.month).2 cutDay
      (le_trans h28 (daysInMonth_ge_28 _ _))).symm
  · intro h hov
    show (if toDays t ≤ toDays (buildDateYMDay t cutDay) then buildDateYMDay t cutDay
          else buildDateYMDay (addMonths t 1) cutDay) = _
    rw [if_neg (by rw [hcmp]; omega), addMonths_one_overflow t hc hov]
    have hnm2 : (nextYM (nextYM t.year t.month).1 (nextYM t.year t.month).2).2 < 12 := by
      simp only [nextYM]
      omega
    show mkDate (nextYM (nextYM t.year t.month).1 (nextYM t.year t.month).2).1
        (nextYM (nextYM t.year t.month).1 (nextYM t.year t.month).2).2 cutDay = _
    rw [mkDate_eq_of_lt _ _ _ hnm2 (le_trans h28 (daysInMonth_ge_28 _ _))]
    have e := nextYM_add2 t.year t.month
    rw [e.1, e.2]
    exact (rollDay_of_le cutDay (t.year + (((t.month + 2) / 12 : Nat) : Int))
      ((t.month + 2) % 12) cutDay (le_trans h28 (daysInMonth_ge_28 _ _))).symm

/-- The applicable cut is always a calendar triple carrying the cut day. -/
theorem getNextCutDate_shape (t : JSDate) (cutDay : Nat) (hc : Canonical t)
    (h28 : cutDay ≤ 28) :
    ∃ cy cm, cm < 12 ∧ getNextCutDate t cutDay = ⟨cy, cm, cutDay⟩ := by
  rcases le_or_lt t.day cutDay with h | h
  · exact ⟨t.year, t.month, hc.1, (getNextCutDate_cases t cutDay hc h28).1 h⟩
  · rcases le_or_lt t.day
        (daysInMonth (nextYM t.year t.month).1 (nextYM t.year t.month).2) with hfit | hov
    · refine ⟨t.year + (((t.month + 1) / 12 : Nat) : Int), (t.month + 1) % 12, by omega, ?_⟩
      rw [(getNextCutDate_cases t cutDay hc h28).2.1 h hfit]
      exact rollDay_of_le _ _ _ _ (le_trans h28 (daysInMonth_ge_28 _ _))
    · refine ⟨t.year + (((t.month + 2) / 12 : Nat) : Int), (t.month + 2) % 12, by omega, ?_⟩
      rw [(getNextCutDate_cases t cutDay hc h28).2.2 h hov]
      exact rollDay_of_le _ _ _ _ (le_trans h28 (daysInMonth_ge_28 _ _))

theorem computeWindow_cutDate (cfg : CycleConfig) (t : JSDate) :
    (computeWindow cfg t).cutDate = getNextCutDate t cfg.cutDay := rfl

theorem computeWindow_dueDate (cfg : CycleConfig) (t : JSDate) :
    (computeWindow cfg t).dueDate =
      (if toDays (buildDateYMDay (addMonths (getNextCutDate t cfg.cutDay) cfg.dueOffset)
              cfg.dueDay) ≤ toDays (getNextCutDate t cfg.cutDay)
       then buildDateYMDay (addMonths (addMonths (getNextCutDate t cfg.cutDay) cfg.dueOffset) 1)
              cfg.dueDay
       else buildDateYMDay (addMonths (getNextCutDate t cfg.cutDay) cfg.dueOffset)
              cfg.dueDay) := rfl

theorem computeWindow_daysToPay (cfg : CycleConfig) (t : JSDate) :
    (computeWindow cfg t).daysToPay =
      max 0 (toDays (computeWindow cfg t).dueDate - toDays t) := rfl

theorem computeWindow_daysToPay_nonneg (cfg : CycleConfig) (t : JSDate) :
    0 ≤ (computeWindow cfg t).daysToPay := by
  rw [computeWindow_daysToPay]
  exact le_max_left _ _

/-- Core window soundness: on a canonical reference date, any cycle with
in-range day numbers and offset 0 or 1 — the shipped catalog and the
degenerate configurations alike — puts the due date strictly after the cut. -/
theorem computeWindow_cut_lt_due (cfg : CycleConfig) (t : JSDate) (hc : Canonical t)
    (h1 : 1 ≤ cfg.cutDay) (h2 : cfg.cutDay ≤ 28)
    (h3 : 1 ≤ cfg.dueDay) (h4 : cfg.dueDay ≤ 28)
    (h5 : cfg.dueOffset ≤ 1) :
    toDays (computeWindow cfg t).cutDate < toDays (computeWindow cfg t).dueDate := by
  obtain ⟨cutDay, dueDay, dueOffset⟩ := cfg
  simp only at h1 h2 h3 h4 h5
  obtain ⟨cy, cm, hcm, hcut⟩ := getNextCutDate_shape t cutDay hc h2
  rw [computeWindow_cutDate, computeWindow_dueDate]
  simp only
  rw [hcut]
  have hdim := daysInMonth_ge_28 cy cm
  interval_cases dueOffset
  · have hA : addMonths ⟨cy, cm, cutDay⟩ 0 = ⟨cy, cm, cutDay⟩ :=
      mkDate_eq_of_lt cy cm cutDay hcm (le_trans h2 hdim)
    rw [hA]
    have hB : buildDateYMDay ⟨cy, cm, cutDay⟩ dueDay = ⟨cy, cm, dueDay⟩ :=
      mkDate_eq_of_lt cy cm dueDay hcm (le_trans h4 hdim)
    rw [hB]
    have hC : addMonths ⟨cy, cm, cutDay⟩ 1 = mkDate cy (cm + 1) cutDay := rfl
    rw [hC, buildDateYMDay_mkDate cy (cm + 1) cutDay dueDay h2 h4]
    split
    · rw [toDays_next_month cy cm dueDay hcm, toDays_mk, toDays_mk]
      omega
    · rename_i hgt
      rw [toDays_mk, toDays_mk] at hgt ⊢
      omega
  · have hA : addMonths ⟨cy, cm, cutDay⟩ 1 = mkDate cy (cm + 1) cutDay := rfl
    rw [hA, buildDateYMDay_mkDate cy (cm + 1) cutDay dueDay h2 h4]
    have hcond : ¬ toDays (mkDate cy (cm + 1) dueDay) ≤ toDays ⟨cy, cm, cutDay⟩ := by
      rw [toDays_next_month cy cm dueDay hcm, toDays_mk, toDays_mk]
      omega
    rw [if_neg hcond]
    rw [toDays_next_month cy cm dueDay hcm, toDays_mk, toDays_mk]
    omega

/-- In the degenerate offset-0 situation where the due day does not fall
after the cut day, the code's protection clause takes the due date rolled
forward one extra month. -/
theorem computeWindow_degenerate_roll (cfg : CycleConfig) (t : JSDate) (hc : Canonical t)
    (h2 : cfg.cutDay ≤ 28) (hoff : cfg.dueOffset = 0) (hdeg : cfg.dueDay ≤ cfg.cutDay) :
    (computeWindow cfg t).dueDate =
      buildDateYMDay (addMonths (addMonths (computeWindow cfg t).cutDate cfg.dueOffset) 1)
        cfg.dueDay := by
  obtain ⟨cutDay, dueDay, dueOffset⟩ := cfg
  simp only at h2 hoff hdeg
  subst hoff
  obtain ⟨cy, cm, hcm, hcut⟩ := getNextCutDate_shape t cutDay hc h2
  rw [computeWindow_dueDate, computeWindow_cutDate]
  simp only
  rw [hcut]
  have hdim := daysInMonth_ge_28 cy cm
  have hA : addMonths ⟨cy, cm, cutDay⟩ 0 = ⟨cy, cm, cutDay⟩ :=
    mkDate_eq_of_lt cy cm cutDay hcm (le_trans h2 hdim)
  rw [hA]
  have hB : buildDateYMDay ⟨cy, cm, cutDay⟩ dueDay = ⟨cy, cm, dueDay⟩ :=
    mkDate_eq_of_lt cy cm dueDay hcm (le_trans (le_trans hdeg h2) hdim)
  rw [hB]
  rw [if_pos (by rw [toDays_day_le]; exact hdeg)]

/-- Every catalog entry has in-range cycle days and an offset of 0 or 1. -/
theorem catalog_cfg_bounds :
    ∀ p ∈ CARD_CYCLE, 1 ≤ p.2.cutDay ∧ p.2.cutDay ≤ 28 ∧
      1 ≤ p.2.dueDay ∧ p.2.dueDay ≤ 28 ∧ p.2.dueOffset ≤ 1 := by
  decide

/-- A successful catalog lookup comes from a catalog entry. -/
theorem cardCycleLookup_mem (bank : String) (cfg : CycleConfig)
    (h : cardCycleLookup bank = some cfg) : (bank, cfg) ∈ CARD_CYCLE := by
  unfold cardCycleLookup at h
  cases hf : CARD_CYCLE.find? (fun p => p.1 == bank) with
  | none => rw [hf] at h; simp at h
  | some p =>
    rw [hf] at h
    simp at h
    have hmem := List.mem_of_find?_eq_some hf
    have hpred := List.find?_some hf
    have hbank : p.1 = bank := by simpa using hpred
    have : p = (bank, cfg) := by
      obtain ⟨p1, p2⟩ := p
      simp only at hbank h
      rw [hbank, h]
    rwa [this] at hmem

/-!
Ranking helpers: the comparator is a total preorder, and the pre-sort list
projects onto the filtered catalog keys.
-/

theorem rankLE_trans : ∀ a b c : RankedCard, rankLE a b → rankLE b c → rankLE a c := by
  intro a b c hab hbc
  simp only [rankLE, decide_eq_true_eq] at hab hbc ⊢
  omega

theorem rankLE_total : ∀ a b : RankedCard, rankLE a b || rankLE b a := by
  intro a b
  simp only [rankLE, Bool.or_eq_true, decide_eq_true_eq]
  omega

theorem configured_isSome :
    ∀ bank ∈ CARD_CYCLE.map Prod.fst, (cardCycleLookup bank).isSome := by
  decide

theorem rankUnsorted_map_bank (today : JSDate) (excludeBanks : List String) :
    (rankUnsorted today excludeBanks).map RankedCard.bank =
      (CARD_CYCLE.map Prod.fst).filter (fun bank => ! excludeBanks.contains bank) := by
  have main : ∀ l : List String, (∀ b ∈ l, (cardCycleLookup b).isSome) →
      (l.filterMap (fun bank =>
        (getPaymentWindow bank (normalizeToDay today)).map
          (fun w => RankedCard.mk bank w))).map RankedCard.bank = l := by
    intro l hl
    induction l with
    | nil => rfl
    | cons x xs ih =>
      have hx := hl x (by simp)
      simp only [List.filterMap_cons]
      cases hcx : cardCycleLookup x with
      | none => rw [hcx] at hx; simp at hx
      | some cfg =>
        have hg : getPaymentWindow x (normalizeToDay today) =
            some (computeWindow cfg (normalizeToDay today)) := by
          unfold getPaymentWindow
          rw [hcx]
          rfl
        simp only [hg, Option.map_some']
        rw [List.map_cons, ih (fun b hb => hl b (by simp [hb]))]
  exact main _ (fun b hb => configured_isSome b (List.mem_of_mem_filter hb))

/-!
Store and handler helpers.
-/

theorem storeGet_cons (k : String) (v : PendingEntry) (rest : Store) (key : String) :
    storeGet ((k, v) :: rest) key = if k == key then some v else storeGet rest key := by
  unfold storeGet
  rw [List.find?_cons]
  by_cases hk : (k == key) = true
  · simp [hk]
  · simp [hk]

theorem storeDelete_of_get_none (s : Store) (key : String) (h : storeGet s key = none) :
    storeDelete s key = s := by
  induction s with
  | nil => rfl
  | cons p rest ih =>
    obtain ⟨k, v⟩ := p
    rw [storeGet_cons] at h
    by_cases hk : (k == key) = true
    · rw [if_pos hk] at h
      simp at h
    · rw [if_neg hk] at h
      simp only [storeDelete]
      rw [if_neg hk]
      exact congrArg _ (ih h)

/-- Once an entry is `WARNED`, the source's warning trigger is off whatever
the ranking says. -/
theorem shouldWarn_of_warned (bestAlt : Option RankedCard) (chosen : PaymentWindow) :
    shouldWarn bestAlt chosen Stage.WARNED = false := by
  cases bestAlt <;> simp [shouldWarn]

/-- Unfolding of the confirm handler once the entry has been fetched. -/
theorem confirm_purchase_some (s : Store) (key : String) (now : Int) (today : JSDate)
    (persistOk : Bool) (p : PendingEntry) (hp : storeGet s key = some p) :
    confirm_purchase s key now today persistOk =
      if PENDING_TTL_MS < now - p.createdAt then (storeDelete s key, Outcome.expired)
      else if SKIP_CUT_VALIDATION.contains p.data.bank then
        (if persistOk then (storeDelete s key, Outcome.committed)
         else (s, Outcome.persistenceError))
      else
        match getPaymentWindow p.data.bank today with
        | none =>
          (if persistOk then (storeDelete s key, Outcome.committed)
           else (s, Outcome.persistenceError))
        | some chosen =>
          if shouldWarn (rankCardsByDaysToPay today [p.data.bank]).head? chosen p.stage then
            (storeSet s key { p with stage := Stage.WARNED },
             Outcome.warned ((rankCardsByDaysToPay today [p.data.bank]).take 3))
          else
            (if persistOk then (storeDelete s key, Outcome.committed)
             else (s, Outcome.persistenceError)) := by
  unfold confirm_purchase
  rw [hp]

/-- Unfolding of the confirm-anyway handler once the entry has been fetched. -/
theorem confirm_purchase_ok_some (s : Store) (key : String) (now : Int)
    (persistOk : Bool) (p : PendingEntry) (hp : storeGet s key = some p) :
    confirm_purchase_ok s key now persistOk =
      if PENDING_TTL_MS < now - p.createdAt then (storeDelete s key, Outcome.expired)
      else if persistOk then (storeDelete s key, Outcome.committed)
      else (s, Outcome.persistenceError) := by
  unfold confirm_purchase_ok
  rw [hp]

/-- Both confirm handlers reject a missing entry with the no-op signal. -/
theorem confirm_none (s : Store) (key : String) (now : Int) (today : JSDate)
    (persistOk : Bool) (hp : storeGet s key = none) :
    confirm_purchase s key now today persistOk = (s, Outcome.nothingPending) ∧
    confirm_purchase_ok s key now persistOk = (s, Outcome.nothingPending) := by
  constructor
  · unfold confirm_purchase
    rw [hp]
  · unfold confirm_purchase_ok
    rw [hp]

/-!
Claim theorems.
-/

/-- C1: for every card configured in the cycle catalog and every canonical
reference date, `getPaymentWindow` returns a window whose cut date is
strictly before its due date (JS compares dates by time value, i.e.
`toDays`) and whose `daysToPay` is a non-negative integer; and for any
degenerate configuration with `dueOffset = 0` and `dueDay < cutDay` the
window's due date is the one rolled forward by one extra month, still
strictly after the cut. -/
theorem C1_payment_window_valid (bank : String) (today : JSDate) (w : PaymentWindow)
    (hc : Canonical today) (hw : getPaymentWindow bank today = some w) :
    (toDays w.cutDate < toDays w.dueDate ∧ 0 ≤ w.daysToPay) ∧
    (∀ cfg : CycleConfig, 1 ≤ cfg.cutDay → cfg.cutDay ≤ 28 → 1 ≤ cfg.dueDay →
      cfg.dueOffset = 0 → cfg.dueDay < cfg.cutDay →
      toDays (computeWindow cfg today).cutDate < toDays (computeWindow cfg today).dueDate ∧
      0 ≤ (computeWindow cfg today).daysToPay ∧
      (computeWindow cfg today).dueDate =
        buildDateYMDay
          (addMonths (addMonths (computeWindow cfg today).cutDate cfg.dueOffset) 1)
          cfg.dueDay) := by
  constructor
  · unfold getPaymentWindow at hw
    cases hcl : cardCycleLookup bank with
    | none => rw [hcl] at hw; simp at hw
    | some cfg =>
      rw [hcl] at hw
      simp only [Option.map_some', Option.some.injEq] at hw
      subst hw
      obtain ⟨b1, b2, b3, b4, b5⟩ := catalog_cfg_bounds _ (cardCycleLookup_mem bank cfg hcl)
      exact ⟨computeWindow_cut_lt_due cfg today hc b1 b2 b3 b4 b5,
        computeWindow_daysToPay_nonneg cfg today⟩
  · intro cfg d1 d2 d3 d4 d5
    exact ⟨computeWindow_cut_lt_due cfg today hc d1 d2 d3 (by omega) (by omega),
      computeWindow_daysToPay_nonneg cfg today,
      computeWindow_degenerate_roll cfg today hc d2 d4 (by omega)⟩

/-- Witness for C1 at the BBVA catalog entry on 2026-01-10. -/
theorem C1_payment_window_valid_witness :
    toDays wBBVA.cutDate < toDays wBBVA.dueDate ∧ 0 ≤ wBBVA.daysToPay :=
  (C1_payment_window_valid bbva ⟨2026, 0, 10⟩ wBBVA (by decide) (by decide)).1

/-- C7 (amended): the applicable cut is the current month's when the
day-normalized reference date is on or before the cut day of its own month
(in particular when they are equal); when strictly after, the cut is the
same cut day of the next month whenever the reference day also exists in
that month, but a reference day that overflows the next month (day 29-31
before a shorter month) is first normalised forward by JS `setMonth`, so
the cut lands on the cut day two months ahead; in the
`cutDay 6 / dueDay 26 / dueOffset 0` scenario at reference day 10 the cut is
day 6 of the next month, the due date is day 26 of that same next month, and
`daysToPay` is the day difference to that due date. -/
theorem C7_cut_selection :
    (∀ (t : JSDate) (cutDay : Nat), Canonical t → cutDay ≤ 28 →
      (t.day ≤ cutDay → getNextCutDate t cutDay = ⟨t.year, t.month, cutDay⟩) ∧
      (cutDay < t.day →
        t.day ≤ daysInMonth (nextYM t.year t.month).1 (nextYM t.year t.month).2 →
        getNextCutDate t cutDay = mkDate t.year (t.month + 1) cutDay) ∧
      (cutDay < t.day →
        daysInMonth (nextYM t.year t.month).1 (nextYM t.year t.month).2 < t.day →
        getNextCutDate t cutDay = mkDate t.year (t.month + 2) cutDay)) ∧
    getPaymentWindow rappicard ⟨2026, 2, 10⟩ =
      some ⟨⟨2026, 3, 6⟩, ⟨2026, 3, 26⟩, 47, ⟨6, 26, 0⟩⟩ ∧
    (47 : Int) = toDays ⟨2026, 3, 26⟩ - toDays ⟨2026, 2, 10⟩ :=
  ⟨fun t cutDay hc h28 => getNextCutDate_cases t cutDay hc h28, by decide, by decide⟩

/-- Counterexample for C7 as stated: at the canonical reference 2026-01-31
with cut day 24 the reference is strictly after the cut day, yet the program
does not use day 24 of the next month (February): `setMonth` first
normalises Jan 31 + 1 month to Mar 3, so the cut computed is March 24. -/
theorem C7_end_of_month_counterexample :
    Canonical ⟨2026, 0, 31⟩ ∧ 24 < 31 ∧
    getNextCutDate ⟨2026, 0, 31⟩ 24 = ⟨2026, 2, 24⟩ ∧
    getNextCutDate ⟨2026, 0, 31⟩ 24 ≠ mkDate 2026 1 24 := by
  decide

/-- Witness for C7: a cut day equal to the reference day stays in the
current month; from 2026-01-28 the cut rolls to February 24 (the day fits);
from 2026-01-31 it overflows February and lands on March 24. -/
theorem C7_cut_selection_witness :
    getNextCutDate ⟨2026, 0, 20⟩ 20 = ⟨2026, 0, 20⟩ ∧
    getNextCutDate ⟨2026, 0, 28⟩ 24 = mkDate 2026 1 24 ∧
    getNextCutDate ⟨2026, 0, 31⟩ 24 = mkDate 2026 2 24 :=
  ⟨(C7_cut_selection.1 ⟨2026, 0, 20⟩ 20 (by decide) (by decide)).1 (by decide),
   (C7_cut_selection.1 ⟨2026, 0, 28⟩ 24 (by decide) (by decide)).2.1 (by decide) (by decide),
   (C7_cut_selection.1 ⟨2026, 0, 31⟩ 24 (by decide) (by decide)).2.2 (by decide) (by decide)⟩

/-- C3: for an entry that has not been warned yet, the advisory decision is
true exactly when the ranking is non-empty and the best-ranked alternative's
`daysToPay` is at least the chosen window's plus the 5-day threshold; the
boundary is inclusive. -/
theorem C3_shouldWarn_iff (ranking : List RankedCard) (chosen : PaymentWindow)
    (stage : Stage) (hstage : stage ≠ Stage.WARNED) :
    shouldWarn ranking.head? chosen stage = true ↔
      ∃ best rest, ranking = best :: rest ∧
        chosen.daysToPay + IMPROVEMENT_THRESHOLD_DAYS ≤ best.window.daysToPay := by
  cases ranking with
  | nil => simp [shouldWarn]
  | cons best rest =>
    simp only [List.head?_cons, shouldWarn, Bool.and_eq_true, decide_eq_true_eq]
    constructor
    · rintro ⟨h1, -⟩
      exact ⟨best, rest, rfl, h1⟩
    · rintro ⟨b, r, heq, hle⟩
      injection heq with hb hr
      subst hb
      exact ⟨hle, hstage⟩

/-- Witness for C3: an edge of exactly 5 days over a 10-day chosen window
warns at stage PREVIEW. -/
theorem C3_shouldWarn_iff_witness :
    shouldWarn [alt15].head? pw10 Stage.PREVIEW = true :=
  (C3_shouldWarn_iff [alt15] pw10 Stage.PREVIEW (by decide)).mpr
    ⟨alt15, [], rfl, by decide⟩

/-- C4: the ranking is a permutation of the pre-sort list — which carries
exactly the configured, non-excluded cards, banks in catalog insertion
order — sorted descending by `daysToPay`, and entries tied on `daysToPay`
keep their catalog relative order (stability: tied pairs survive as
sublists). -/
theorem C4_ranking_sorted_stable (today : JSDate) (excludeBanks : List String) :
    (rankCardsByDaysToPay today excludeBanks).Pairwise
        (fun a b => b.window.daysToPay ≤ a.window.daysToPay) ∧
    (rankCardsByDaysToPay today excludeBanks).Perm (rankUnsorted today excludeBanks) ∧
    (rankUnsorted today excludeBanks).map RankedCard.bank =
      (CARD_CYCLE.map Prod.fst).filter (fun bank => ! excludeBanks.contains bank) ∧
    (∀ a b : RankedCard, a.window.daysToPay = b.window.daysToPay →
      [a, b].Sublist (rankUnsorted today excludeBanks) →
      [a, b].Sublist (rankCardsByDaysToPay today excludeBanks)) := by
  refine ⟨?_, ?_, rankUnsorted_map_bank today excludeBanks, ?_⟩
  · exact (List.sorted_mergeSort rankLE_trans rankLE_total
      (rankUnsorted today excludeBanks)).imp (fun h => by simpa [rankLE] using h)
  · exact List.mergeSort_perm _ _
  · intro a b htie hsub
    exact List.pair_sublist_mergeSort rankLE_trans rankLE_total
      (by simp only [rankLE, decide_eq_true_eq]; omega) hsub

/-- Witness for C4: on 2026-01-01, RAPPICARD and BANAMEX tie at 25 days and
keep their catalog order in the ranking. -/
theorem C4_ranking_sorted_stable_witness :
    [rcRappi, rcBanamex].Sublist (rankCardsByDaysToPay ⟨2026, 0, 1⟩ []) :=
  (C4_ranking_sorted_stable ⟨2026, 0, 1⟩ []).2.2.2 rcRappi rcBanamex
    (by decide) (by decide)

/-- C2 (amended): on a pending entry older than the TTL, confirm and
confirm-anyway are rejected with EXPIRED and the entry is removed — whether
or not the periodic sweep has run, since both handlers re-check the TTL;
cancel also removes the entry but performs no TTL check and reports a
successful CANCELLED outcome instead of EXPIRED. -/
theorem C2_expired_actions (s : Store) (key : String) (now : Int) (today : JSDate)
    (persistOk : Bool) (p : PendingEntry) (hp : storeGet s key = some p)
    (hexp : PENDING_TTL_MS < now - p.createdAt) :
    confirm_purchase s key now today persistOk = (storeDelete s key, Outcome.expired) ∧
    confirm_purchase_ok s key now persistOk = (storeDelete s key, Outcome.expired) ∧
    cancel_purchase s key = (storeDelete s key, Outcome.cancelled) := by
  refine ⟨?_, ?_, rfl⟩
  · rw [confirm_purchase_some s key now today persistOk p hp, if_pos hexp]
  · rw [confirm_purchase_ok_some s key now persistOk p hp, if_pos hexp]

/-- Counterexample for C2 as stated: on an entry 200 seconds old (the TTL is
180 seconds), the cancel action is not rejected with the EXPIRED outcome —
the handler never checks the TTL and reports a successful cancellation. -/
theorem C2_cancel_ignores_ttl :
    storeGet (sampleStore capital Stage.PREVIEW) exKey =
      some ⟨samplePurchase capital, 0, Stage.PREVIEW⟩ ∧
    PENDING_TTL_MS < 200000 - (0 : Int) ∧
    (cancel_purchase (sampleStore capital Stage.PREVIEW) exKey).2 = Outcome.cancelled ∧
    (cancel_purchase (sampleStore capital Stage.PREVIEW) exKey).2 ≠ Outcome.expired := by
  decide

/-- Witness for C2: a 200-second-old entry is expired for both confirm
buttons. -/
theorem C2_expired_actions_witness :
    confirm_purchase (sampleStore bbva Stage.PREVIEW) exKey 200000 ⟨2026, 0, 10⟩ true =
      (storeDelete (sampleStore bbva Stage.PREVIEW) exKey, Outcome.expired) ∧
    confirm_purchase_ok (sampleStore bbva Stage.PREVIEW) exKey 200000 true =
      (storeDelete (sampleStore bbva Stage.PREVIEW) exKey, Outcome.expired) :=
  ⟨(C2_expired_actions (sampleStore bbva Stage.PREVIEW) exKey 200000 ⟨2026, 0, 10⟩ true
      ⟨samplePurchase bbva, 0, Stage.PREVIEW⟩ (by decide) (by decide)).1,
   (C2_expired_actions (sampleStore bbva Stage.PREVIEW) exKey 200000 ⟨2026, 0, 10⟩ true
      ⟨samplePurchase bbva, 0, Stage.PREVIEW⟩ (by decide) (by decide)).2.1⟩

/-- C5: once an entry is WARNED it is never warned again — a repeated
confirm and the confirm-anyway action both reach COMMITTED (on persistence
success), and the advisory trigger is off for WARNED entries whatever the
ranking holds. -/
theorem C5_warn_once (s : Store) (key : String) (now : Int) (today : JSDate)
    (p : PendingEntry) (hp : storeGet s key = some p) (hstage : p.stage = Stage.WARNED)
    (hlive : now - p.createdAt ≤ PENDING_TTL_MS) :
    confirm_purchase s key now today true = (storeDelete s key, Outcome.committed) ∧
    confirm_purchase_ok s key now true = (storeDelete s key, Outcome.committed) ∧
    (∀ (bestAlt : Option RankedCard) (chosen : PaymentWindow),
      shouldWarn bestAlt chosen p.stage = false) := by
  refine ⟨?_, ?_, ?_⟩
  · rw [confirm_purchase_some s key now today true p hp, if_neg (by omega), hstage]
    by_cases hskip : SKIP_CUT_VALIDATION.contains p.data.bank = true
    · rw [if_pos hskip]
      rfl
    · rw [if_neg hskip]
      cases hgw : getPaymentWindow p.data.bank today with
      | none => rfl
      | some chosen =>
        simp only [shouldWarn_of_warned]
        rfl
  · rw [confirm_purchase_ok_some s key now true p hp, if_neg (by omega)]
    rfl
  · intro bestAlt chosen
    rw [hstage]
    exact shouldWarn_of_warned bestAlt chosen

/-- Witness for C5: a live WARNED entry on a configured card commits through
both confirm buttons. -/
theorem C5_warn_once_witness :
    confirm_purchase (sampleStore bbva Stage.WARNED) exKey 1000 ⟨2026, 0, 10⟩ true =
      (storeDelete (sampleStore bbva Stage.WARNED) exKey, Outcome.committed) ∧
    confirm_purchase_ok (sampleStore bbva Stage.WARNED) exKey 1000 true =
      (storeDelete (sampleStore bbva Stage.WARNED) exKey, Outcome.committed) :=
  ⟨(C5_warn_once (sampleStore bbva Stage.WARNED) exKey 1000 ⟨2026, 0, 10⟩
      ⟨samplePurchase bbva, 0, Stage.WARNED⟩ (by decide) (by decide) (by decide)).1,
   (C5_warn_once (sampleStore bbva Stage.WARNED) exKey 1000 ⟨2026, 0, 10⟩
      ⟨samplePurchase bbva, 0, Stage.WARNED⟩ (by decide) (by decide) (by decide)).2.1⟩

/-- C6: whenever a confirm action surfaces the persistence failure, the
store is left unchanged — the pending entry is not deleted, so the same user
can retry the confirm without re-entering the purchase. -/
theorem C6_persistence_failure_keeps_entry (s : Store) (key : String) (now : Int)
    (today : JSDate) (persistOk : Bool) :
    ((confirm_purchase s key now today persistOk).2 = Outcome.persistenceError →
      (confirm_purchase s key now today persistOk).1 = s) ∧
    ((confirm_purchase_ok s key now persistOk).2 = Outcome.persistenceError →
      (confirm_purchase_ok s key now persistOk).1 = s) := by
  constructor
  · cases hp : storeGet s key with
    | none =>
      rw [(confirm_none s key now today persistOk hp).1]
      simp
    | some p =>
      rw [confirm_purchase_some s key now today persistOk p hp]
      split
      · simp
      · split
        · split <;> simp
        · split
          · split <;> simp
          · split
            · simp
            · split <;> simp
  · cases hp : storeGet s key with
    | none =>
      rw [(confirm_none s key now today persistOk hp).2]
      simp
    | some p =>
      rw [confirm_purchase_ok_some s key now persistOk p hp]
      split
      · simp
      · split <;> simp

/-- Witness for C6: a failing append on a live CAPITAL entry reports the
retryable error and keeps the store intact. -/
theorem C6_persistence_failure_keeps_entry_witness :
    (confirm_purchase (sampleStore capital Stage.PREVIEW) exKey 1000
      ⟨2026, 0, 10⟩ false).1 = sampleStore capital Stage.PREVIEW :=
  (C6_persistence_failure_keeps_entry (sampleStore capital Stage.PREVIEW) exKey 1000
    ⟨2026, 0, 10⟩ false).1 (by decide)

/-- C8: a confirm on a live entry whose bank is cycle-exempt or not in the
catalog commits directly, for every reference date — no window, no ranking,
no warning can occur. -/
theorem C8_exempt_commits (s : Store) (key : String) (now : Int) (today : JSDate)
    (p : PendingEntry) (hp : storeGet s key = some p)
    (hlive : now - p.createdAt ≤ PENDING_TTL_MS)
    (hbank : SKIP_CUT_VALIDATION.contains p.data.bank = true ∨
      cardCycleLookup p.data.bank = none) :
    confirm_purchase s key now today true = (storeDelete s key, Outcome.committed) := by
  rw [confirm_purchase_some s key now today true p hp, if_neg (by omega)]
  rcases hbank with hskip | hnone
  · rw [if_pos hskip]
    rfl
  · by_cases hskip : SKIP_CUT_VALIDATION.contains p.data.bank = true
    · rw [if_pos hskip]
      rfl
    · rw [if_neg hskip]
      have hgw : getPaymentWindow p.data.bank today = none := by
        unfold getPaymentWindow
        rw [hnone]
        rfl
      rw [hgw]
      rfl

/-- Witness for C8: live entries on the exempt CAPITAL identifier and on an
unconfigured AMEX identifier both commit directly. -/
theorem C8_exempt_commits_witness :
    confirm_purchase (sampleStore capital Stage.PREVIEW) exKey 1000 ⟨2026, 0, 10⟩ true =
      (storeDelete (sampleStore capital Stage.PREVIEW) exKey, Outcome.committed) ∧
    confirm_purchase (sampleStore amex Stage.PREVIEW) exKey 1000 ⟨2026, 0, 10⟩ true =
      (storeDelete (sampleStore amex Stage.PREVIEW) exKey, Outcome.committed) :=
  ⟨C8_exempt_commits (sampleStore capital Stage.PREVIEW) exKey 1000 ⟨2026, 0, 10⟩
      ⟨samplePurchase capital, 0, Stage.PREVIEW⟩ (by decide) (by decide) (Or.inl (by decide)),
   C8_exempt_commits (sampleStore amex Stage.PREVIEW) exKey 1000 ⟨2026, 0, 10⟩
      ⟨samplePurchase amex, 0, Stage.PREVIEW⟩ (by decide) (by decide) (Or.inr (by decide))⟩

/-- C9 (amended): confirm and confirm-anyway on a key with no pending entry
are rejected with the "nothing pending" no-op signal and leave the store
unchanged; cancel also leaves the store unchanged (deleting a missing key)
but reports a successful CANCELLED outcome rather than "nothing pending". -/
theorem C9_no_entry_noop (s : Store) (key : String) (now : Int) (today : JSDate)
    (persistOk : Bool) (hp : storeGet s key = none) :
    confirm_purchase s key now today persistOk = (s, Outcome.nothingPending) ∧
    confirm_purchase_ok s key now persistOk = (s, Outcome.nothingPending) ∧
    cancel_purchase s key = (s, Outcome.cancelled) := by
  obtain ⟨h1, h2⟩ := confirm_none s key now today persistOk hp
  refine ⟨h1, h2, ?_⟩
  unfold cancel_purchase
  rw [storeDelete_of_get_none s key hp]

/-- Counterexample for C9 as stated: the cancel action on a key with no
pending entry is not rejected with a "nothing pending" signal — it reports a
successful cancellation. -/
theorem C9_cancel_no_entry :
    storeGet [] exKey = none ∧
    (cancel_purchase [] exKey).2 = Outcome.cancelled ∧
    (cancel_purchase [] exKey).2 ≠ Outcome.nothingPending := by
  decide

/-- Witness for C9: both confirm buttons reject an empty store as a no-op. -/
theorem C9_no_entry_noop_witness :
    confirm_purchase [] exKey 1000 ⟨2026, 0, 10⟩ true = ([], Outcome.nothingPending) ∧
    confirm_purchase_ok [] exKey 1000 true = ([], Outcome.nothingPending) :=
  ⟨(C9_no_entry_noop [] exKey 1000 ⟨2026, 0, 10⟩ true (by decide)).1,
   (C9_no_entry_noop [] exKey 1000 ⟨2026, 0, 10⟩ true (by decide)).2.1⟩

/-- C10: the confirm-anyway handler is not guarded by stage — every live
pending entry, PREVIEW or WARNED, commits directly through it (on
persistence success), and it can never produce a warning outcome. -/
theorem C10_confirm_ok_unguarded (s : Store) (key : String) (now : Int)
    (p : PendingEntry) (hp : storeGet s key = some p)
    (hlive : now - p.createdAt ≤ PENDING_TTL_MS) :
    confirm_purchase_ok s key now true = (storeDelete s key, Outcome.committed) ∧
    (∀ (persistOk : Bool) (l : List RankedCard),
      (confirm_purchase_ok s key now persistOk).2 ≠ Outcome.warned l) := by
  constructor
  · rw [confirm_purchase_ok_some s key now true p hp, if_neg (by omega)]
    rfl
  · intro persistOk l
    rw [confirm_purchase_ok_some s key now persistOk p hp]
    split
    · simp
    · split <;> simp

/-- Witness for C10: a live PREVIEW entry — never warned — commits through
the confirm-anyway path. -/
theorem C10_confirm_ok_unguarded_witness :
    confirm_purchase_ok (sampleStore bbva Stage.PREVIEW) exKey 1000 true =
      (storeDelete (sampleStore bbva Stage.PREVIEW) exKey, Outcome.committed) :=
  (C10_confirm_ok_unguarded (sampleStore bbva Stage.PREVIEW) exKey 1000
    ⟨samplePurchase bbva, 0, Stage.PREVIEW⟩ (by decide) (by decide)).1

end BotCompras
